import Mathlib

/-!
Shallow embedding of the service-resolution cache (cache.go) and the error
classifier (error.go) of the services repository.

The Go code is concurrent; the embedding models the externally observable
sequential behaviour: the mutex-protected critical sections of Cache.lookup
execute atomically in some order, so one complete cache operation running to
quiescence is modelled as a pure state transition on the cache state.  All
environment inputs that the Go code draws at runtime (the backend reply to
Registry.Lookup, the values returned by time.Now, and the random permutation
drawn by rand.Perm) are passed in explicitly as oracle arguments.

Machine integers: the per-item round-robin counter is a Go uint64 updated by
atomic.AddUint64, which wraps modulo 2^64; it is modelled as a Nat reduced
modulo 2^64 at each increment.  The statistics counters are modelled as
their unbounded event counts; the int64 register that the program stores
for a count is its two's-complement image under the reduction int64 below:
atomic.AddInt64 adds modulo 2^64 on the register, so folding the wrapped
additions equals the image of the unbounded sum (lemma int64_add_left).
Properties are therefore stated on the faithful view: equations that
survive the wrap (evictions + size = misses) on the counts, monotonicity
of the registers under an explicit below-2^63 bound.  The byte counter is
held near the configured budget by the eviction loop itself.  Durations
and times (int64 nanoseconds) are modelled as Int.
-/

/-- Byte-wise (code-point-wise) lexicographic string comparison, the order in
which sort.Strings sorts a Go string slice.  Defined on the character lists
backing the strings.  (UTF-8 byte order and code-point order agree.) -/
def strListLe : List Char → List Char → Bool
  | [], _ => true
  | _ :: _, [] => false
  | a :: as, b :: bs =>
    if a.toNat < b.toNat then true
    else if b.toNat < a.toNat then false
    else strListLe as bs

/-- Lexicographic order on String, as compared by Go string comparison. -/
def strLe (a b : String) : Bool := strListLe a.data b.data

/-- copyStrings (cache.go): returns nil for an empty slice, otherwise a copy
with the same contents.  In a pure model a copy is the value itself. -/
def copyStrings (s : List String) : List String :=
  if s.length = 0 then [] else s

/-- sortedStrings (cache.go): copy the slice and sort it with sort.Strings
when it has more than one element.  sort.Strings sorts by Go string order;
since that order is total and antisymmetric the sorted result is unique, so
it is modelled by insertion sort over the same order. -/
def sortedStrings (s : List String) : List String :=
  let s := copyStrings s
  if s.length > 1 then List.insertionSort (fun a b => strLe a b = true) s else s

/-- cacheKey (cache.go): the lookup key, a name plus the normalized tag
string. -/
structure cacheKey where
  name : String
  tags : String
deriving DecidableEq, Repr

/-- makeCacheKey (cache.go): joins the (already sorted) tags with a comma. -/
def makeCacheKey (name : String) (tags : List String) : cacheKey :=
  { name := name, tags := String.intercalate "," tags }

/-- Model of the Go error values that the classifier in error.go
distinguishes.  Constructors carry exactly the data the classifier inspects:
the Err string of a net.DNSError, the wrapped error of a net.OpError or
os.SyscallError, the code of a syscall.Errno, the name held by the
cacheError of cache.go (whose Unreachable method returns true), the
context.Canceled sentinel, and an opaque other error. -/
inductive GoError where
  | dnsError (err : String)
  | opError (inner : GoError)
  | syscallError (inner : GoError)
  | errno (code : Nat)
  | cacheError (name : String)
  | contextCanceled
  | other (msg : String)
deriving DecidableEq, Repr

/-- Linux errno codes used by isUnreachableErrno. -/
def ECONNRESET : Nat := 104

def ECONNABORTED : Nat := 103

def ECONNREFUSED : Nat := 111

/-- isUnreachableDNSError (error.go): the DNSError Err field equals
"no such host". -/
def isUnreachableDNSError (err : String) : Bool := err == "no such host"

/-- isUnreachableErrno (error.go). -/
def isUnreachableErrno (code : Nat) : Bool :=
  code == ECONNABORTED || code == ECONNREFUSED || code == ECONNRESET

/-- isUnreachable (error.go): walks the chain of wrapped failures following
the type switch in the source.  The cacheError case corresponds to the
errorUnreachable branch: its Unreachable method returns true. -/
def isUnreachable : GoError → Bool
  | .dnsError err => isUnreachableDNSError err
  | .opError inner => isUnreachable inner
  | .syscallError inner => isUnreachable inner
  | .errno code => isUnreachableErrno code
  | .cacheError _ => true
  | .contextCanceled => false
  | .other _ => false

/-- sizeofString (cache.go): unsafe.Sizeof of a string header (16 bytes on a
64-bit platform) plus the length of the string. -/
def sizeofString (s : String) : Int := 16 + s.length

/-- sizeofStrings (cache.go): unsafe.Sizeof of a slice header (24 bytes on a
64-bit platform) plus the sizes of the strings. -/
def sizeofStrings (s : List String) : Int :=
  24 + (s.map sizeofString).sum

/-- unsafe.Sizeof of the cacheItem struct on a 64-bit platform:
index uint64 (8) + key cacheKey (two string headers, 32) + tags slice header
(24) + addrs slice header (24) + bytes int64 (8) + ttl time.Time (24) +
err interface header (16) + ready channel pointer (8). -/
def cacheItemSizeof : Int := 144

/-- shuffledStrings (cache.go): c[i] = s[perm[i]] where perm is the
permutation of 0..len(s)-1 drawn from rand.Perm.  The random draw is the
explicit perm argument; out-of-range oracle values fall back to the identity
index so that the definition is total. -/
def shuffledStrings (perm : List Nat) (s : List String) : List String :=
  (List.range s.length).map fun i => s.getD (perm.getD i i) ""

/-- The configuration fields of the Cache struct (cache.go).  The Registry
backend is an oracle of the lookup operations, and the mutable map, queue
and counters are modelled separately by CacheState. -/
structure Cache where
  MinTTL : Int
  MaxTTL : Int
  MaxBytes : Int
deriving DecidableEq, Repr

/-- Cache.maxBytes (cache.go): the configured budget, defaulting to 1 MiB
when the MaxBytes field is not positive. -/
def Cache.maxBytes (cache : Cache) : Int :=
  if cache.MaxBytes > 0 then cache.MaxBytes else 1024 * 1024

/-- Cache.minTTL (cache.go): the configured floor, defaulting to 0. -/
def Cache.minTTL (cache : Cache) : Int :=
  if cache.MinTTL > 0 then cache.MinTTL else 0

/-- Cache.maxTTL (cache.go): the configured ceiling, defaulting to
math.MaxInt64. -/
def Cache.maxTTL (cache : Cache) : Int :=
  if cache.MaxTTL > 0 then cache.MaxTTL else 2 ^ 63 - 1

/-- cacheItem (cache.go).  The ready channel is not represented: readiness
is the point at which the filled item is observed, and the one-shot fill is
the cacheItem.lookup transition below.  index is the uint64 round-robin
counter, ttl the absolute expiry time, err the cached backend error. -/
structure cacheItem where
  index : Nat
  key : cacheKey
  tags : List String
  addrs : List String
  bytes : Int
  ttl : Int
  err : Option GoError
deriving DecidableEq, Repr

/-- newCacheItem (cache.go): a pending item holding only its key; all other
fields are Go zero values.  Note that the Go constructor ignores its tags
parameter, so the tags field of every item is nil. -/
def newCacheItem (key : cacheKey) (tags : List String) : cacheItem :=
  { index := 0, key := key, tags := [], addrs := [], bytes := 0, ttl := 0, err := none }

/-- What Registry.Lookup returns to the background fetch: the address list,
the reported validity duration, and the error. -/
structure BackendResult where
  addrs : List String
  ttl : Int
  err : Option GoError
deriving DecidableEq, Repr

/-- cacheItem.lookup (cache.go): the background fetch.  res is what the
backend returned, now is the value of time.Now when the fetch completes and
perm is the permutation drawn by rand.Perm.  Clamps the reported ttl into
the [minTTL, maxTTL] window, computes the byte footprint, shuffles the
addresses, sets the absolute expiry and stores the error. -/
def cacheItem.lookup (item : cacheItem) (res : BackendResult)
    (minTTL maxTTL : Int) (now : Int) (perm : List Nat) : cacheItem :=
  let ttl := res.ttl
  let ttl := if ttl < minTTL then minTTL else ttl
  let ttl := if ttl > maxTTL then maxTTL else ttl
  { item with
    bytes := cacheItemSizeof + sizeofStrings res.addrs +
      sizeofString item.key.name + sizeofString item.key.tags +
      sizeofStrings item.tags
    addrs := shuffledStrings perm res.addrs
    ttl := now + ttl
    err := res.err }

/-- The mutable state of a Cache: the recency queue (front = most recently
touched) and the statistics counters.  The items map contains exactly the
keys of the queue entries, so the queue list plays both roles.  Counter
fields hold the unbounded event counts; the int64 register the program
stores for a count c holds the value int64 c. -/
structure CacheState where
  queue : List cacheItem
  bytes : Int
  size : Int
  hits : Int
  misses : Int
  evictions : Int
deriving DecidableEq, Repr

/-- The zero value of the cache state: empty map and queue, all counters
zero. -/
def CacheState.empty : CacheState :=
  { queue := [], bytes := 0, size := 0, hits := 0, misses := 0, evictions := 0 }

/-- Lookup of a key in the items map (cache.go line 114). -/
def findItem (q : List cacheItem) (key : cacheKey) : Option cacheItem :=
  q.find? fun it => it.key == key

/-- MoveToFront of the entry with the given key (cache.go line 116). -/
def moveToFront (q : List cacheItem) (item : cacheItem) : List cacheItem :=
  item :: q.eraseP fun it => it.key == item.key

/-- Replace the queue entry sharing the key of the given item (pointer
identity in Go: the item written back is the same entry). -/
def updateItem (q : List cacheItem) (item : cacheItem) : List cacheItem :=
  q.map fun it => if it.key == item.key then item else it

/-- Total byte footprint of a list of items. -/
def sumBytes (l : List cacheItem) : Int :=
  (l.map cacheItem.bytes).sum

/-- The budget eviction loop (cache.go lines 172-189) acting on the reversed
queue, so that the back of the queue is the head of the list: while the byte
counter exceeds the budget and the cache is not empty, remove the oldest
entry, subtract its footprint, decrement size and increment evictions. -/
def evictLoopRev (maxBytes : Int) :
    List cacheItem → Int → Int → Int → List cacheItem × Int × Int × Int
  | [], bytes, size, evictions => ([], bytes, size, evictions)
  | oldest :: rest, bytes, size, evictions =>
    if bytes > maxBytes then
      evictLoopRev maxBytes rest (bytes - oldest.bytes) (size - 1) (evictions + 1)
    else (oldest :: rest, bytes, size, evictions)

/-- The budget eviction loop on the queue in front-first order. -/
def evictLoop (maxBytes : Int) (q : List cacheItem) (bytes size evictions : Int) :
    List cacheItem × Int × Int × Int :=
  let r := evictLoopRev maxBytes q.reverse bytes size evictions
  (r.1.reverse, r.2)

/-- The oracle inputs consumed by one iteration of the Cache.lookup loop:
the backend reply, the rand.Perm draw and the time.Now value of the
background fetch (used only on a miss), and the time.Now value of the
expiry check at line 138. -/
structure LookupOracle where
  backend : BackendResult
  perm : List Nat
  nowFetch : Int
  nowCheck : Int
deriving Repr

/-- The statistics and budget eviction tail of the miss path (cache.go lines
165-189): increment size and misses, add the item footprint to the byte
counter, then run the budget eviction loop. -/
def finishMiss (cache : Cache) (st : CacheState) (item : cacheItem) :
    CacheState × cacheItem :=
  let size := st.size + 1
  let misses := st.misses + 1
  let bytes := st.bytes + item.bytes
  let r := evictLoop cache.maxBytes st.queue bytes size st.evictions
  ({ queue := r.1, bytes := r.2.1, size := r.2.2.1, hits := st.hits,
     misses := misses, evictions := r.2.2.2 }, item)

/-- The miss path of one Cache.lookup iteration: create the pending entry,
insert it at the front of the queue and into the map, run the background
fetch, then perform the expiry check of line 138.  If the new entry is
already expired it is evicted (bytes, size, evictions adjusted) but the
fetched item is still used; either way the miss falls through to
finishMiss, never back to the top of the loop. -/
def missBranch (cache : Cache) (st : CacheState) (key : cacheKey)
    (tags : List String) (o : LookupOracle) : CacheState × cacheItem :=
  let item := (newCacheItem key tags).lookup o.backend cache.minTTL cache.maxTTL
    o.nowFetch o.perm
  if o.nowCheck > item.ttl then
    let st1 : CacheState := { st with
      bytes := st.bytes - item.bytes
      size := st.size - 1
      evictions := st.evictions + 1 }
    finishMiss cache st1 item
  else
    finishMiss cache { st with queue := item :: st.queue } item

/-- Outcome of one iteration of the Cache.lookup retry loop: either the
final state together with the item served and whether the iteration was a
hit, or a retry carrying the state after the expired hit was evicted. -/
inductive LookupResult where
  | done (st : CacheState) (item : cacheItem) (hit : Bool)
  | retry (st : CacheState)
deriving Repr

/-- One iteration of the Cache.lookup loop (cache.go lines 112-193) for an
already-normalized key.  On a hit the entry moves to the front; if the hit
entry is expired at the check it is evicted and the loop retries; otherwise
the hit counter is incremented and the entry is served.  On a miss the
missBranch runs. -/
def lookupIter (cache : Cache) (st : CacheState) (key : cacheKey)
    (tags : List String) (o : LookupOracle) : LookupResult :=
  match findItem st.queue key with
  | some item =>
    if o.nowCheck > item.ttl then
      .retry { st with
        queue := st.queue.eraseP fun it => it.key == key
        bytes := st.bytes - item.bytes
        size := st.size - 1
        evictions := st.evictions + 1 }
    else
      .done { st with queue := moveToFront st.queue item, hits := st.hits + 1 }
        item true
  | none =>
    let r := missBranch cache st key tags o
    .done r.1 r.2 false

/-- Cache.lookup (cache.go): normalize the tags, build the key, and run the
retry loop.  A retry is possible only after an expired hit, after which the
key is absent, so a second iteration always completes; the third branch is
unreachable from well-formed states (a theorem below) and returns the
pending item unchanged. -/
def Cache.lookup (cache : Cache) (st : CacheState) (name : String)
    (tags : List String) (o1 o2 : LookupOracle) : CacheState × cacheItem × Bool :=
  let tags := sortedStrings tags
  let key := makeCacheKey name tags
  match lookupIter cache st key tags o1 with
  | .done st1 item hit => (st1, item, hit)
  | .retry st1 =>
    match lookupIter cache st1 key tags o2 with
    | .done st2 item hit => (st2, item, hit)
    | .retry st2 => (st2, newCacheItem key tags, false)

/-- The round-robin tail of Cache.Resolve (cache.go lines 81-88): the
uint64 counter is atomically incremented (wrapping modulo 2^64), and the
address at the incremented counter modulo the list length is returned; an
empty list yields the cacheError.  A cached backend error is returned
before the counter is touched. -/
def resolveAddr (item : cacheItem) : cacheItem × Except GoError String :=
  match item.err with
  | some e => (item, Except.error e)
  | none =>
    let i := (item.index + 1) % 2 ^ 64
    let item := { item with index := i }
    if h : item.addrs.length = 0 then
      (item, Except.error (GoError.cacheError item.key.name))
    else
      (item, Except.ok (item.addrs.get
        ⟨i % item.addrs.length, Nat.mod_lt _ (Nat.pos_of_ne_zero h)⟩))

/-- Repeated calls of the round-robin tail against the same entry with no
intervening TTL expiry: returns the final item and the list of results in
call order. -/
def resolveN (item : cacheItem) : Nat → cacheItem × List (Except GoError String)
  | 0 => (item, [])
  | n + 1 =>
    let r := resolveAddr item
    let rest := resolveN r.1 n
    (rest.1, r.2 :: rest.2)

/-- Cache.Resolve (cache.go): the shared lookup with no tags, followed by
the round-robin selection; the item with the advanced counter is written
back to its queue slot (in Go the counter lives inside the shared entry). -/
def Cache.Resolve (cache : Cache) (st : CacheState) (name : String)
    (o1 o2 : LookupOracle) : CacheState × Except GoError String :=
  let r := Cache.lookup cache st name [] o1 o2
  let ra := resolveAddr r.2.1
  ({ r.1 with queue := updateItem r.1.queue ra.1 }, ra.2)

/-- One cache operation of a sequential trace: either a Resolve or a plain
lookup, with its oracle inputs. -/
structure CacheOp where
  name : String
  tags : List String
  resolveOp : Bool
  o1 : LookupOracle
  o2 : LookupOracle

/-- Run a sequence of cache operations to quiescence, one after the other. -/
def runOps (cache : Cache) (st : CacheState) : List CacheOp → CacheState
  | [] => st
  | op :: rest =>
    let st' := if op.resolveOp then (Cache.Resolve cache st op.name op.o1 op.o2).1
      else (Cache.lookup cache st op.name op.tags op.o1 op.o2).1
    runOps cache st' rest

/-- The mutex-protected critical section of Cache.lookup (cache.go lines
113-125) together with the launch decision of line 128: look the key up in
the map; on a hit move the entry to the front; on a miss push a new pending
entry at the front and insert it, and launch the one backend call.  Returns
the new queue, the entry this caller waits on, and whether this caller
launched the backend call. -/
def critSection (q : List cacheItem) (key : cacheKey) (tags : List String) :
    List cacheItem × cacheItem × Bool :=
  match findItem q key with
  | some item => (moveToFront q item, item, false)
  | none =>
    let item := newCacheItem key tags
    (item :: q, item, true)

/-- N callers racing on the cache execute their critical sections in some
serial order (the mutex serializes them).  Returns the final queue and the
number of backend calls launched. -/
def runCallers (q : List cacheItem) : List cacheKey → List cacheItem × Nat
  | [] => (q, 0)
  | key :: rest =>
    let r := critSection q key []
    let r' := runCallers r.1 rest
    (r'.1, (if r.2.2 then 1 else 0) + r'.2)

/-- Decidable equality of backend call outcomes. -/
instance : DecidableEq (Except GoError String) := fun a b =>
  match a, b with
  | .ok x, .ok y =>
    if h : x = y then .isTrue (by rw [h])
    else .isFalse (by intro hh; cases hh; exact h rfl)
  | .error x, .error y =>
    if h : x = y then .isTrue (by rw [h])
    else .isFalse (by intro hh; cases hh; exact h rfl)
  | .ok _, .error _ => .isFalse (by intro hh; cases hh)
  | .error _, .ok _ => .isFalse (by intro hh; cases hh)

/-- A concrete ready three-address entry, used to exercise the round-robin
selection away from the counter wrap. -/
def rrItem : cacheItem :=
  { index := 5, key := { name := "svc", tags := "" }, tags := [],
    addrs := ["a", "b", "c"], bytes := 0, ttl := 100, err := none }

/-- The same entry with the uint64 counter three steps from wrapping. -/
def rrWrapItem : cacheItem :=
  { index := 2 ^ 64 - 3, key := { name := "svc", tags := "" }, tags := [],
    addrs := ["a", "b", "c"], bytes := 0, ttl := 100, err := none }

/-- The value held by a two's-complement int64 register whose mathematical
running sum is x.  atomic.AddInt64 adds modulo 2^64 on the register, so
after any sequence of additions the register holds this image of the
unbounded sum (lemma int64_add_left below). -/
def int64 (x : Int) : Int := (x + 2 ^ 63) % 2 ^ 64 - 2 ^ 63

/-! ### Order lemmas for the Go string order -/

theorem char_eq_of_toNat_eq {a b : Char} (h : a.toNat = b.toNat) : a = b := by
  cases a; cases b
  simp only [Char.toNat] at h
  congr 1
  exact UInt32.ext h

theorem strListLe_total : ∀ a b : List Char, strListLe a b = true ∨ strListLe b a = true
  | [], _ => Or.inl rfl
  | _ :: _, [] => Or.inr rfl
  | a :: as, b :: bs => by
    by_cases h1 : a.toNat < b.toNat
    · left; simp [strListLe, h1]
    · by_cases h2 : b.toNat < a.toNat
      · right; simp [strListLe, h2]
      · rcases strListLe_total as bs with h | h
        · left; simp [strListLe, h1, h2, h]
        · right; simp [strListLe, h1, h2, h]

theorem strListLe_trans :
    ∀ a b c : List Char, strListLe a b = true → strListLe b c = true →
      strListLe a c = true
  | [], _, _, _, _ => rfl
  | _ :: _, [], _, h, _ => by simp [strListLe] at h
  | _ :: _, _ :: _, [], _, h => by simp [strListLe] at h
  | a :: as, b :: bs, c :: cs, h1, h2 => by
    by_cases hab : a.toNat < b.toNat
    · by_cases hbc : b.toNat < c.toNat
      · have hac : a.toNat < c.toNat := Nat.lt_trans hab hbc
        simp [strListLe, hac]
      · by_cases hcb : c.toNat < b.toNat
        · simp [strListLe, hbc, hcb] at h2
        · have hac : a.toNat < c.toNat := by omega
          simp [strListLe, hac]
    · by_cases hba : b.toNat < a.toNat
      · simp [strListLe, hab, hba] at h1
      · by_cases hbc : b.toNat < c.toNat
        · have hac : a.toNat < c.toNat := by omega
          simp [strListLe, hac]
        · by_cases hcb : c.toNat < b.toNat
          · simp [strListLe, hbc, hcb] at h2
          · have ha' : strListLe as bs = true := by
              simpa [strListLe, hab, hba] using h1
            have hb' : strListLe bs cs = true := by
              simpa [strListLe, hbc, hcb] using h2
            have hac1 : ¬ a.toNat < c.toNat := by omega
            have hac2 : ¬ c.toNat < a.toNat := by omega
            simp [strListLe, hac1, hac2, strListLe_trans as bs cs ha' hb']

theorem strListLe_antisymm :
    ∀ a b : List Char, strListLe a b = true → strListLe b a = true → a = b
  | [], [], _, _ => rfl
  | [], _ :: _, _, h => by simp [strListLe] at h
  | _ :: _, [], h, _ => by simp [strListLe] at h
  | a :: as, b :: bs, h1, h2 => by
    by_cases hab : a.toNat < b.toNat
    · have h' : ¬ b.toNat < a.toNat := by omega
      simp [strListLe, h', hab] at h2
    · by_cases hba : b.toNat < a.toNat
      · have h' : ¬ a.toNat < b.toNat := by omega
        simp [strListLe, hba, h'] at h1
      · have hchar : a = b := char_eq_of_toNat_eq (by omega)
        have ha' : strListLe as bs = true := by simpa [strListLe, hab, hba] using h1
        have hb' : strListLe bs as = true := by simpa [strListLe, hab, hba] using h2
        rw [hchar, strListLe_antisymm as bs ha' hb']

theorem strLe_total (a b : String) : strLe a b = true ∨ strLe b a = true :=
  strListLe_total a.data b.data

theorem strLe_trans {a b c : String} (h1 : strLe a b = true)
    (h2 : strLe b c = true) : strLe a c = true :=
  strListLe_trans a.data b.data c.data h1 h2

theorem strLe_antisymm {a b : String} (h1 : strLe a b = true)
    (h2 : strLe b a = true) : a = b := by
  cases a; cases b
  exact congrArg String.mk (strListLe_antisymm _ _ h1 h2)

instance : IsTotal String fun a b => strLe a b = true := ⟨strLe_total⟩

instance : IsTrans String fun a b => strLe a b = true :=
  ⟨fun _ _ _ => strLe_trans⟩

instance : IsAntisymm String fun a b => strLe a b = true :=
  ⟨fun _ _ => strLe_antisymm⟩

/-- On lists longer than one element, sortedStrings is the insertion sort. -/
theorem sortedStrings_eq_insertionSort (l : List String) (h : l.length > 1) :
    sortedStrings l = List.insertionSort (fun x y => strLe x y = true) l := by
  have h0 : ¬ l.length = 0 := by omega
  simp [sortedStrings, copyStrings, h0, h]

/-- Sorting with a total antisymmetric order maps permuted inputs to the
same output. -/
theorem sortedStrings_perm {l₁ l₂ : List String} (h : l₁.Perm l₂) :
    sortedStrings l₁ = sortedStrings l₂ := by
  have hlen := h.length_eq
  rcases l₁ with _ | ⟨a, _ | ⟨b, tl⟩⟩
  · rw [h.symm.eq_nil]
  · rw [List.perm_singleton.mp h.symm]
  · rcases l₂ with _ | ⟨c, _ | ⟨d, tl₂⟩⟩
    · simp at hlen
    · simp at hlen
    · rw [sortedStrings_eq_insertionSort _ (by simp),
        sortedStrings_eq_insertionSort _ (by simp)]
      exact List.eq_of_perm_of_sorted
        (((List.perm_insertionSort _ _).trans h).trans
          (List.perm_insertionSort _ _).symm)
        (List.sorted_insertionSort _ _)
        (List.sorted_insertionSort _ _)

/-- C8: for every name and every pair of tag lists that are permutations of
each other, the shared lookup algorithm normalizes them to the same sorted
list, hence the same cache key, and the whole lookup behaves identically,
so one ordering never causes a cache miss for the other. -/
theorem lookup_key_tag_order_invariant (name : String)
    (tags₁ tags₂ : List String) (h : tags₁.Perm tags₂) :
    sortedStrings tags₁ = sortedStrings tags₂ ∧
    makeCacheKey name (sortedStrings tags₁) =
      makeCacheKey name (sortedStrings tags₂) ∧
    ∀ (cache : Cache) (st : CacheState) (o1 o2 : LookupOracle),
      Cache.lookup cache st name tags₁ o1 o2 =
        Cache.lookup cache st name tags₂ o1 o2 := by
  have hs := sortedStrings_perm h
  refine ⟨hs, by rw [hs], fun cache st o1 o2 => ?_⟩
  simp only [Cache.lookup, hs]

/-- Witness for C8 at a concrete permuted pair of tag lists. -/
theorem lookup_key_tag_order_invariant_witness :
    (["b", "a", "c"] : List String).Perm ["a", "b", "c"] ∧
    (sortedStrings ["b", "a", "c"] = sortedStrings ["a", "b", "c"] ∧
      makeCacheKey "svc" (sortedStrings ["b", "a", "c"]) =
        makeCacheKey "svc" (sortedStrings ["a", "b", "c"]) ∧
      ∀ (cache : Cache) (st : CacheState) (o1 o2 : LookupOracle),
        Cache.lookup cache st "svc" ["b", "a", "c"] o1 o2 =
          Cache.lookup cache st "svc" ["a", "b", "c"] o1 o2) :=
  ⟨by decide, lookup_key_tag_order_invariant "svc" _ _ (by decide)⟩

/-- C10: the tag lists ["a,b"] and ["a", "b"] are distinct and are not
permutations of each other, yet they normalize to the same cache key,
because tags are joined with a comma that can occur inside a tag; two
callers using them therefore share one cache entry and launch a single
backend call. -/
theorem cacheKey_comma_collision :
    (["a,b"] : List String) ≠ ["a", "b"] ∧
    ¬ (["a,b"] : List String).Perm ["a", "b"] ∧
    makeCacheKey "svc" (sortedStrings ["a,b"]) =
      makeCacheKey "svc" (sortedStrings ["a", "b"]) ∧
    (runCallers []
      [makeCacheKey "svc" (sortedStrings ["a,b"]),
       makeCacheKey "svc" (sortedStrings ["a", "b"])]).2 = 1 := by
  refine ⟨by decide, by decide, by decide, by decide⟩

/-! ### Statistics bookkeeping lemmas -/

/-- The budget eviction loop preserves the sum of the size and eviction
counters (each step moves one unit from size to evictions) and never
decreases the eviction counter. -/
theorem evictLoopRev_stats (maxB : Int) :
    ∀ (l : List cacheItem) (b s e : Int),
      (evictLoopRev maxB l b s e).2.2.1 + (evictLoopRev maxB l b s e).2.2.2 = s + e ∧
      e ≤ (evictLoopRev maxB l b s e).2.2.2
  | [], b, s, e => by simp [evictLoopRev]
  | oldest :: rest, b, s, e => by
    by_cases h : b > maxB
    · have ih := evictLoopRev_stats maxB rest (b - oldest.bytes) (s - 1) (e + 1)
      simp only [evictLoopRev, if_pos h]
      omega
    · simp [evictLoopRev, h]

/-- The miss bookkeeping moves the counters by exactly one miss: the sum of
evictions and size grows by one, misses grows by one, hits is untouched. -/
theorem finishMiss_stats (cache : Cache) (st : CacheState) (item : cacheItem) :
    (finishMiss cache st item).1.evictions + (finishMiss cache st item).1.size =
      st.evictions + st.size + 1 ∧
    (finishMiss cache st item).1.misses = st.misses + 1 ∧
    (finishMiss cache st item).1.hits = st.hits ∧
    st.evictions ≤ (finishMiss cache st item).1.evictions := by
  have h := evictLoopRev_stats cache.maxBytes st.queue.reverse
    (st.bytes + item.bytes) (st.size + 1) st.evictions
  simp only [finishMiss, evictLoop]
  exact ⟨by omega, trivial, trivial, by omega⟩

/-- The whole miss path moves the counters by exactly one miss, whether or
not the fresh entry is already expired at the check. -/
theorem missBranch_stats (cache : Cache) (st : CacheState) (key : cacheKey)
    (tags : List String) (o : LookupOracle) :
    (missBranch cache st key tags o).1.evictions + (missBranch cache st key tags o).1.size =
      st.evictions + st.size + 1 ∧
    (missBranch cache st key tags o).1.misses = st.misses + 1 ∧
    (missBranch cache st key tags o).1.hits = st.hits ∧
    st.evictions ≤ (missBranch cache st key tags o).1.evictions := by
  simp only [missBranch]
  split
  · have h := finishMiss_stats cache
      { st with
        bytes := st.bytes -
          ((newCacheItem key tags).lookup o.backend cache.minTTL cache.maxTTL
            o.nowFetch o.perm).bytes
        size := st.size - 1
        evictions := st.evictions + 1 }
      ((newCacheItem key tags).lookup o.backend cache.minTTL cache.maxTTL
        o.nowFetch o.perm)
    dsimp only at h
    rcases h with ⟨h1, h2, h3, h4⟩
    refine ⟨by omega, by omega, by omega, by omega⟩
  · have h := finishMiss_stats cache
      { st with queue :=
          ((newCacheItem key tags).lookup o.backend cache.minTTL cache.maxTTL
            o.nowFetch o.perm) :: st.queue }
      ((newCacheItem key tags).lookup o.backend cache.minTTL cache.maxTTL
        o.nowFetch o.perm)
    dsimp only at h
    rcases h with ⟨h1, h2, h3, h4⟩
    refine ⟨by omega, by omega, by omega, by omega⟩

/-- Counter bookkeeping of one iteration of the lookup loop. -/
theorem lookupIter_stats (cache : Cache) (st : CacheState) (key : cacheKey)
    (tags : List String) (o : LookupOracle) :
    (∀ st1 item hit, lookupIter cache st key tags o = .done st1 item hit →
      st1.evictions + st1.size = st.evictions + st.size + (if hit then 0 else 1) ∧
      st1.misses = st.misses + (if hit then 0 else 1) ∧
      st1.hits = st.hits + (if hit then 1 else 0) ∧
      st.evictions ≤ st1.evictions) ∧
    (∀ st1, lookupIter cache st key tags o = .retry st1 →
      st1.evictions + st1.size = st.evictions + st.size ∧
      st1.misses = st.misses ∧ st1.hits = st.hits ∧
      st.evictions ≤ st1.evictions) := by
  unfold lookupIter
  cases hfind : findItem st.queue key with
  | some item =>
    by_cases hexp : o.nowCheck > item.ttl
    · simp only [if_pos hexp]
      constructor
      · intro st1 it hit h
        cases h
      · intro st1 h
        cases h
        dsimp only
        refine ⟨by omega, rfl, rfl, by omega⟩
    · simp only [if_neg hexp]
      constructor
      · intro st1 it hit h
        cases h
        simp
      · intro st1 h
        cases h
  | none =>
    have h := missBranch_stats cache st key tags o
    constructor
    · intro st1 it hit hdone
      cases hdone
      simpa using h
    · intro st1 h
      cases h

/-- Counter bookkeeping of a complete Cache.lookup operation: the sum of
evictions and size, minus misses, is preserved, and hits, misses and
evictions never decrease. -/
theorem lookup_stats (cache : Cache) (st : CacheState) (name : String)
    (tags : List String) (o1 o2 : LookupOracle) :
    (Cache.lookup cache st name tags o1 o2).1.evictions +
        (Cache.lookup cache st name tags o1 o2).1.size -
        (Cache.lookup cache st name tags o1 o2).1.misses =
      st.evictions + st.size - st.misses ∧
    st.hits ≤ (Cache.lookup cache st name tags o1 o2).1.hits ∧
    st.misses ≤ (Cache.lookup cache st name tags o1 o2).1.misses ∧
    st.evictions ≤ (Cache.lookup cache st name tags o1 o2).1.evictions := by
  unfold Cache.lookup
  cases h1 : lookupIter cache st (makeCacheKey name (sortedStrings tags))
    (sortedStrings tags) o1 with
  | done st1 item hit =>
    have := (lookupIter_stats cache st _ _ o1).1 st1 item hit h1
    cases hit <;> simp_all <;> omega
  | retry st1 =>
    have ha := (lookupIter_stats cache st _ _ o1).2 st1 h1
    cases h2 : lookupIter cache st1 (makeCacheKey name (sortedStrings tags))
      (sortedStrings tags) o2 with
    | done st2 item hit =>
      have hb := (lookupIter_stats cache st1 _ _ o2).1 st2 item hit h2
      cases hit <;> simp_all <;> omega
    | retry st2 =>
      have hb := (lookupIter_stats cache st1 _ _ o2).2 st2 h2
      obtain ⟨a1, a2, a3, a4⟩ := ha
      obtain ⟨b1, b2, b3, b4⟩ := hb
      dsimp only
      rw [h1]
      dsimp only
      rw [h2]
      dsimp only
      refine ⟨by omega, by omega, by omega, by omega⟩

/-- Resolve only adds the round-robin index write-back on top of the shared
lookup; the statistics counters are untouched by it. -/
theorem Resolve_stats (cache : Cache) (st : CacheState) (name : String)
    (o1 o2 : LookupOracle) :
    (Cache.Resolve cache st name o1 o2).1.evictions +
        (Cache.Resolve cache st name o1 o2).1.size -
        (Cache.Resolve cache st name o1 o2).1.misses =
      st.evictions + st.size - st.misses ∧
    st.hits ≤ (Cache.Resolve cache st name o1 o2).1.hits ∧
    st.misses ≤ (Cache.Resolve cache st name o1 o2).1.misses ∧
    st.evictions ≤ (Cache.Resolve cache st name o1 o2).1.evictions :=
  lookup_stats cache st name [] o1 o2

/-- Counter bookkeeping over a whole trace of operations. -/
theorem runOps_stats (cache : Cache) :
    ∀ (ops : List CacheOp) (st : CacheState),
      (runOps cache st ops).evictions + (runOps cache st ops).size -
          (runOps cache st ops).misses =
        st.evictions + st.size - st.misses ∧
      st.hits ≤ (runOps cache st ops).hits ∧
      st.misses ≤ (runOps cache st ops).misses ∧
      st.evictions ≤ (runOps cache st ops).evictions
  | [], st => by simp [runOps]
  | op :: rest, st => by
    simp only [runOps]
    by_cases hr : op.resolveOp
    · simp only [if_pos hr]
      have h1 := Resolve_stats cache st op.name op.o1 op.o2
      have ih := runOps_stats cache rest (Cache.Resolve cache st op.name op.o1 op.o2).1
      exact ⟨by omega, by omega, by omega, by omega⟩
    · simp only [if_neg hr]
      have h1 := lookup_stats cache st op.name op.tags op.o1 op.o2
      have ih := runOps_stats cache rest
        (Cache.lookup cache st op.name op.tags op.o1 op.o2).1
      exact ⟨by omega, by omega, by omega, by omega⟩

/-- C1: starting from the empty cache, after every sequence of complete
cache operations (lookups with hits, misses, TTL expirations and budget
evictions, with arbitrary oracle inputs) the statistics satisfy
evictions + size = misses: every counted miss is either still resident or
has been evicted, never both and never neither. -/
theorem stats_evictions_size_misses_invariant (cache : Cache) (ops : List CacheOp) :
    (runOps cache CacheState.empty ops).evictions +
        (runOps cache CacheState.empty ops).size =
      (runOps cache CacheState.empty ops).misses := by
  have h := (runOps_stats cache ops CacheState.empty).1
  have e1 : CacheState.empty.evictions = 0 := rfl
  have e2 : CacheState.empty.size = 0 := rfl
  have e3 : CacheState.empty.misses = 0 := rfl
  omega

/-- Folding a wrapped int64 addition equals the int64 image of the
unbounded sum: this is why reading the register of a counter as the int64
image of its event count is faithful to atomic.AddInt64. -/
theorem int64_add_left (a b : Int) : int64 (int64 a + b) = int64 (a + b) := by
  unfold int64
  omega

/-- Below 2^63 the register holds the count itself. -/
theorem int64_eq_of_lt (x : Int) (h0 : 0 ≤ x) (h1 : x < 2 ^ 63) :
    int64 x = x := by
  unfold int64
  omega

/-- C3 (amended): the cumulative counters hits, misses and evictions are
monotonically non-decreasing event counts, and the int64 registers the
program stores for them are non-decreasing over every sequence of cache
operations during which each count stays below 2^63 — at the 2^63rd
increment atomic.AddInt64 wraps the register from 2^63 - 1 to -2^63, as
the last two conjuncts record; the current entry count and byte footprint
are gauges that budget and expiry eviction decrease (see the
counterexample). -/
theorem stats_cumulative_counters_monotone (cache : Cache) (st : CacheState)
    (ops : List CacheOp)
    (h0 : 0 ≤ st.hits ∧ 0 ≤ st.misses ∧ 0 ≤ st.evictions)
    (hbound : (runOps cache st ops).hits < 2 ^ 63 ∧
      (runOps cache st ops).misses < 2 ^ 63 ∧
      (runOps cache st ops).evictions < 2 ^ 63) :
    (st.hits ≤ (runOps cache st ops).hits ∧
     st.misses ≤ (runOps cache st ops).misses ∧
     st.evictions ≤ (runOps cache st ops).evictions) ∧
    (int64 st.hits ≤ int64 (runOps cache st ops).hits ∧
     int64 st.misses ≤ int64 (runOps cache st ops).misses ∧
     int64 st.evictions ≤ int64 (runOps cache st ops).evictions) ∧
    int64 (2 ^ 63 - 1) = 2 ^ 63 - 1 ∧ int64 (2 ^ 63) = -(2 ^ 63) := by
  have m1 := (runOps_stats cache ops st).2.1
  have m2 := (runOps_stats cache ops st).2.2.1
  have m3 := (runOps_stats cache ops st).2.2.2
  refine ⟨⟨m1, m2, m3⟩, ⟨?_, ?_, ?_⟩, by unfold int64; omega, by unfold int64; omega⟩
  · rw [int64_eq_of_lt st.hits h0.1 (lt_of_le_of_lt m1 hbound.1),
      int64_eq_of_lt _ (le_trans h0.1 m1) hbound.1]
    exact m1
  · rw [int64_eq_of_lt st.misses h0.2.1 (lt_of_le_of_lt m2 hbound.2.1),
      int64_eq_of_lt _ (le_trans h0.2.1 m2) hbound.2.1]
    exact m2
  · rw [int64_eq_of_lt st.evictions h0.2.2 (lt_of_le_of_lt m3 hbound.2.2),
      int64_eq_of_lt _ (le_trans h0.2.2 m3) hbound.2.2]
    exact m3

/-- Witness for the amended C3: one miss on the empty cache keeps every
count far below 2^63, and the counts and registers are monotone across it. -/
theorem stats_cumulative_counters_monotone_witness :
    ((0 : Int) ≤ CacheState.empty.hits ∧ 0 ≤ CacheState.empty.misses ∧
      0 ≤ CacheState.empty.evictions) ∧
    ((runOps { MinTTL := 0, MaxTTL := 0, MaxBytes := 300 } CacheState.empty
        [{ name := "a", tags := [], resolveOp := false,
           o1 := { backend := { addrs := [], ttl := 1000, err := none },
                   perm := [], nowFetch := 0, nowCheck := 0 },
           o2 := { backend := { addrs := [], ttl := 1000, err := none },
                   perm := [], nowFetch := 0, nowCheck := 0 } }]).hits < 2 ^ 63 ∧
     (runOps { MinTTL := 0, MaxTTL := 0, MaxBytes := 300 } CacheState.empty
        [{ name := "a", tags := [], resolveOp := false,
           o1 := { backend := { addrs := [], ttl := 1000, err := none },
                   perm := [], nowFetch := 0, nowCheck := 0 },
           o2 := { backend := { addrs := [], ttl := 1000, err := none },
                   perm := [], nowFetch := 0, nowCheck := 0 } }]).misses < 2 ^ 63 ∧
     (runOps { MinTTL := 0, MaxTTL := 0, MaxBytes := 300 } CacheState.empty
        [{ name := "a", tags := [], resolveOp := false,
           o1 := { backend := { addrs := [], ttl := 1000, err := none },
                   perm := [], nowFetch := 0, nowCheck := 0 },
           o2 := { backend := { addrs := [], ttl := 1000, err := none },
                   perm := [], nowFetch := 0, nowCheck := 0 } }]).evictions < 2 ^ 63) ∧
    ((CacheState.empty.hits ≤
        (runOps { MinTTL := 0, MaxTTL := 0, MaxBytes := 300 } CacheState.empty
          [{ name := "a", tags := [], resolveOp := false,
             o1 := { backend := { addrs := [], ttl := 1000, err := none },
                     perm := [], nowFetch := 0, nowCheck := 0 },
             o2 := { backend := { addrs := [], ttl := 1000, err := none },
                     perm := [], nowFetch := 0, nowCheck := 0 } }]).hits ∧
      CacheState.empty.misses ≤
        (runOps { MinTTL := 0, MaxTTL := 0, MaxBytes := 300 } CacheState.empty
          [{ name := "a", tags := [], resolveOp := false,
             o1 := { backend := { addrs := [], ttl := 1000, err := none },
                     perm := [], nowFetch := 0, nowCheck := 0 },
             o2 := { backend := { addrs := [], ttl := 1000, err := none },
                     perm := [], nowFetch := 0, nowCheck := 0 } }]).misses ∧
      CacheState.empty.evictions ≤
        (runOps { MinTTL := 0, MaxTTL := 0, MaxBytes := 300 } CacheState.empty
          [{ name := "a", tags := [], resolveOp := false,
             o1 := { backend := { addrs := [], ttl := 1000, err := none },
                     perm := [], nowFetch := 0, nowCheck := 0 },
             o2 := { backend := { addrs := [], ttl := 1000, err := none },
                     perm := [], nowFetch := 0, nowCheck := 0 } }]).evictions) ∧
     (int64 CacheState.empty.hits ≤
        int64 (runOps { MinTTL := 0, MaxTTL := 0, MaxBytes := 300 } CacheState.empty
          [{ name := "a", tags := [], resolveOp := false,
             o1 := { backend := { addrs := [], ttl := 1000, err := none },
                     perm := [], nowFetch := 0, nowCheck := 0 },
             o2 := { backend := { addrs := [], ttl := 1000, err := none },
                     perm := [], nowFetch := 0, nowCheck := 0 } }]).hits ∧
      int64 CacheState.empty.misses ≤
        int64 (runOps { MinTTL := 0, MaxTTL := 0, MaxBytes := 300 } CacheState.empty
          [{ name := "a", tags := [], resolveOp := false,
             o1 := { backend := { addrs := [], ttl := 1000, err := none },
                     perm := [], nowFetch := 0, nowCheck := 0 },
             o2 := { backend := { addrs := [], ttl := 1000, err := none },
                     perm := [], nowFetch := 0, nowCheck := 0 } }]).misses ∧
      int64 CacheState.empty.evictions ≤
        int64 (runOps { MinTTL := 0, MaxTTL := 0, MaxBytes := 300 } CacheState.empty
          [{ name := "a", tags := [], resolveOp := false,
             o1 := { backend := { addrs := [], ttl := 1000, err := none },
                     perm := [], nowFetch := 0, nowCheck := 0 },
             o2 := { backend := { addrs := [], ttl := 1000, err := none },
                     perm := [], nowFetch := 0, nowCheck := 0 } }]).evictions) ∧
     int64 (2 ^ 63 - 1) = 2 ^ 63 - 1 ∧ int64 (2 ^ 63) = -(2 ^ 63)) :=
  ⟨⟨by decide, by decide, by decide⟩, ⟨by decide, by decide, by decide⟩,
    stats_cumulative_counters_monotone { MinTTL := 0, MaxTTL := 0, MaxBytes := 300 }
      CacheState.empty
      [{ name := "a", tags := [], resolveOp := false,
         o1 := { backend := { addrs := [], ttl := 1000, err := none },
                 perm := [], nowFetch := 0, nowCheck := 0 },
         o2 := { backend := { addrs := [], ttl := 1000, err := none },
                 perm := [], nowFetch := 0, nowCheck := 0 } }]
      ⟨by decide, by decide, by decide⟩ ⟨by decide, by decide, by decide⟩⟩

/-- C3 counterexample: the claim says all five statistics are monotonically
non-decreasing, but size and bytes decrease under budget eviction.  With a
300-byte budget, a first miss leaves size 1; a second miss whose entry
footprint alone exceeds the budget evicts both entries, leaving size 0 and
a smaller byte footprint than after the first operation. -/
theorem stats_size_gauge_decreases :
    (runOps { MinTTL := 0, MaxTTL := 0, MaxBytes := 300 } CacheState.empty
      [{ name := "a", tags := [], resolveOp := false,
         o1 := { backend := { addrs := [], ttl := 1000, err := none },
                 perm := [], nowFetch := 0, nowCheck := 0 },
         o2 := { backend := { addrs := [], ttl := 1000, err := none },
                 perm := [], nowFetch := 0, nowCheck := 0 } }]).size = 1 ∧
    (runOps { MinTTL := 0, MaxTTL := 0, MaxBytes := 300 } CacheState.empty
      [{ name := "a", tags := [], resolveOp := false,
         o1 := { backend := { addrs := [], ttl := 1000, err := none },
                 perm := [], nowFetch := 0, nowCheck := 0 },
         o2 := { backend := { addrs := [], ttl := 1000, err := none },
                 perm := [], nowFetch := 0, nowCheck := 0 } },
       { name := "b", tags := [], resolveOp := false,
         o1 := { backend := { addrs := [String.mk (List.replicate 60 'x')],
                              ttl := 1000, err := none },
                 perm := [0], nowFetch := 0, nowCheck := 0 },
         o2 := { backend := { addrs := [String.mk (List.replicate 60 'x')],
                              ttl := 1000, err := none },
                 perm := [0], nowFetch := 0, nowCheck := 0 } }]).size = 0 := by
  refine ⟨by decide, by decide⟩

/-- When the stored entry has no error and an empty address list, the
round-robin tail of Resolve fails with the cacheError naming the key. -/
theorem resolveAddr_no_addrs (item : cacheItem) (he : item.err = none)
    (ha : item.addrs = []) :
    (resolveAddr item).2 = Except.error (GoError.cacheError item.key.name) := by
  unfold resolveAddr
  rw [he]
  dsimp only
  simp [ha]

/-- The miss path always hands the freshly fetched item to the caller. -/
theorem missBranch_item (cache : Cache) (st : CacheState) (key : cacheKey)
    (tags : List String) (o : LookupOracle) :
    (missBranch cache st key tags o).2 =
      (newCacheItem key tags).lookup o.backend cache.minTTL cache.maxTTL
        o.nowFetch o.perm := by
  unfold missBranch finishMiss
  dsimp only
  split <;> rfl

/-- A miss runs the miss branch and completes in one iteration. -/
theorem lookupIter_of_miss (cache : Cache) (st : CacheState) (key : cacheKey)
    (tags : List String) (o : LookupOracle)
    (hmiss : findItem st.queue key = none) :
    lookupIter cache st key tags o =
      .done (missBranch cache st key tags o).1
        (missBranch cache st key tags o).2 false := by
  unfold lookupIter
  rw [hmiss]

/-- C5: if the key is uncached and the backend replies with an empty address
list and no error, Cache.Resolve fails with the cacheError for that name,
and the classifier isUnreachable reports that error as unreachable. -/
theorem resolve_empty_result_unreachable (cache : Cache) (st : CacheState)
    (name : String) (o1 o2 : LookupOracle)
    (hmiss : findItem st.queue (makeCacheKey name (sortedStrings [])) = none)
    (haddrs : o1.backend.addrs = []) (herr : o1.backend.err = none) :
    (Cache.Resolve cache st name o1 o2).2 =
      Except.error (GoError.cacheError name) ∧
    isUnreachable (GoError.cacheError name) = true := by
  constructor
  · unfold Cache.Resolve Cache.lookup
    dsimp only
    rw [lookupIter_of_miss cache st _ _ o1 hmiss]
    dsimp only
    rw [missBranch_item]
    rw [resolveAddr_no_addrs]
    · rfl
    · simp [cacheItem.lookup, herr]
    · simp [cacheItem.lookup, haddrs, shuffledStrings]
  · rfl

/-- Witness for C5 on the empty cache with a concrete empty backend reply. -/
theorem resolve_empty_result_unreachable_witness :
    (findItem CacheState.empty.queue (makeCacheKey "svc" (sortedStrings [])) = none ∧
     ({ backend := { addrs := [], ttl := 30, err := none }, perm := [],
        nowFetch := 0, nowCheck := 0 } : LookupOracle).backend.addrs = [] ∧
     ({ backend := { addrs := [], ttl := 30, err := none }, perm := [],
        nowFetch := 0, nowCheck := 0 } : LookupOracle).backend.err = none) ∧
    ((Cache.Resolve { MinTTL := 0, MaxTTL := 0, MaxBytes := 0 } CacheState.empty "svc"
        { backend := { addrs := [], ttl := 30, err := none }, perm := [],
          nowFetch := 0, nowCheck := 0 }
        { backend := { addrs := [], ttl := 30, err := none }, perm := [],
          nowFetch := 0, nowCheck := 0 }).2 =
      Except.error (GoError.cacheError "svc") ∧
     isUnreachable (GoError.cacheError "svc") = true) :=
  ⟨⟨by decide, by decide, by decide⟩,
    resolve_empty_result_unreachable _ _ "svc" _ _ (by decide) (by decide) (by decide)⟩

/-- C6: for every backend result, successful or failed, the background
fetch clamps the reported validity duration into the window between the
configured floor and ceiling (the floor defaulting to 0 and the ceiling to
math.MaxInt64 when the configured fields are not positive), sets the entry
expiry to now plus the clamped duration, and stores the backend error on
the entry under that same expiry. -/
theorem backend_ttl_clamped_and_errors_cached (cache : Cache)
    (item : cacheItem) (res : BackendResult) (now : Int) (perm : List Nat)
    (h : cache.minTTL ≤ cache.maxTTL) :
    (cache.MinTTL ≤ 0 → cache.minTTL = 0) ∧
    (cache.MaxTTL ≤ 0 → cache.maxTTL = 2 ^ 63 - 1) ∧
    cache.minTTL ≤ (item.lookup res cache.minTTL cache.maxTTL now perm).ttl - now ∧
    (item.lookup res cache.minTTL cache.maxTTL now perm).ttl - now ≤ cache.maxTTL ∧
    (cache.minTTL ≤ res.ttl → res.ttl ≤ cache.maxTTL →
      (item.lookup res cache.minTTL cache.maxTTL now perm).ttl = now + res.ttl) ∧
    (res.ttl < cache.minTTL →
      (item.lookup res cache.minTTL cache.maxTTL now perm).ttl = now + cache.minTTL) ∧
    (res.ttl > cache.maxTTL →
      (item.lookup res cache.minTTL cache.maxTTL now perm).ttl = now + cache.maxTTL) ∧
    (item.lookup res cache.minTTL cache.maxTTL now perm).err = res.err := by
  refine ⟨?_, ?_, ?_, ?_, ?_, ?_, ?_, rfl⟩
  · intro h0
    simp only [Cache.minTTL, if_neg (show ¬ cache.MinTTL > 0 by omega)]
  · intro h0
    simp only [Cache.maxTTL, if_neg (show ¬ cache.MaxTTL > 0 by omega)]
  all_goals
    dsimp only [cacheItem.lookup]
    split_ifs <;> omega

/-- Witness for C6 with a concrete configuration and backend reply. -/
theorem backend_ttl_clamped_and_errors_cached_witness :
    (Cache.minTTL { MinTTL := 5, MaxTTL := 10, MaxBytes := 0 } ≤
      Cache.maxTTL { MinTTL := 5, MaxTTL := 10, MaxBytes := 0 }) ∧
    (({ MinTTL := 5, MaxTTL := 10, MaxBytes := 0 } : Cache).MinTTL ≤ 0 →
      Cache.minTTL { MinTTL := 5, MaxTTL := 10, MaxBytes := 0 } = 0) ∧
    (({ MinTTL := 5, MaxTTL := 10, MaxBytes := 0 } : Cache).MaxTTL ≤ 0 →
      Cache.maxTTL { MinTTL := 5, MaxTTL := 10, MaxBytes := 0 } = 2 ^ 63 - 1) ∧
    Cache.minTTL { MinTTL := 5, MaxTTL := 10, MaxBytes := 0 } ≤
      ((newCacheItem { name := "svc", tags := "" } []).lookup
        { addrs := ["a:1"], ttl := 99, err := some (GoError.dnsError "no such host") }
        (Cache.minTTL { MinTTL := 5, MaxTTL := 10, MaxBytes := 0 })
        (Cache.maxTTL { MinTTL := 5, MaxTTL := 10, MaxBytes := 0 }) 1000 [0]).ttl - 1000 ∧
    ((newCacheItem { name := "svc", tags := "" } []).lookup
        { addrs := ["a:1"], ttl := 99, err := some (GoError.dnsError "no such host") }
        (Cache.minTTL { MinTTL := 5, MaxTTL := 10, MaxBytes := 0 })
        (Cache.maxTTL { MinTTL := 5, MaxTTL := 10, MaxBytes := 0 }) 1000 [0]).ttl - 1000 ≤
      Cache.maxTTL { MinTTL := 5, MaxTTL := 10, MaxBytes := 0 } ∧
    (Cache.minTTL { MinTTL := 5, MaxTTL := 10, MaxBytes := 0 } ≤ (99 : Int) →
      (99 : Int) ≤ Cache.maxTTL { MinTTL := 5, MaxTTL := 10, MaxBytes := 0 } →
      ((newCacheItem { name := "svc", tags := "" } []).lookup
        { addrs := ["a:1"], ttl := 99, err := some (GoError.dnsError "no such host") }
        (Cache.minTTL { MinTTL := 5, MaxTTL := 10, MaxBytes := 0 })
        (Cache.maxTTL { MinTTL := 5, MaxTTL := 10, MaxBytes := 0 }) 1000 [0]).ttl = 1000 + 99) ∧
    ((99 : Int) < Cache.minTTL { MinTTL := 5, MaxTTL := 10, MaxBytes := 0 } →
      ((newCacheItem { name := "svc", tags := "" } []).lookup
        { addrs := ["a:1"], ttl := 99, err := some (GoError.dnsError "no such host") }
        (Cache.minTTL { MinTTL := 5, MaxTTL := 10, MaxBytes := 0 })
        (Cache.maxTTL { MinTTL := 5, MaxTTL := 10, MaxBytes := 0 }) 1000 [0]).ttl =
        1000 + Cache.minTTL { MinTTL := 5, MaxTTL := 10, MaxBytes := 0 }) ∧
    ((99 : Int) > Cache.maxTTL { MinTTL := 5, MaxTTL := 10, MaxBytes := 0 } →
      ((newCacheItem { name := "svc", tags := "" } []).lookup
        { addrs := ["a:1"], ttl := 99, err := some (GoError.dnsError "no such host") }
        (Cache.minTTL { MinTTL := 5, MaxTTL := 10, MaxBytes := 0 })
        (Cache.maxTTL { MinTTL := 5, MaxTTL := 10, MaxBytes := 0 }) 1000 [0]).ttl =
        1000 + Cache.maxTTL { MinTTL := 5, MaxTTL := 10, MaxBytes := 0 }) ∧
    ((newCacheItem { name := "svc", tags := "" } []).lookup
        { addrs := ["a:1"], ttl := 99, err := some (GoError.dnsError "no such host") }
        (Cache.minTTL { MinTTL := 5, MaxTTL := 10, MaxBytes := 0 })
        (Cache.maxTTL { MinTTL := 5, MaxTTL := 10, MaxBytes := 0 }) 1000 [0]).err =
      some (GoError.dnsError "no such host") :=
  ⟨by decide,
    backend_ttl_clamped_and_errors_cached { MinTTL := 5, MaxTTL := 10, MaxBytes := 0 }
      (newCacheItem { name := "svc", tags := "" } [])
      { addrs := ["a:1"], ttl := 99, err := some (GoError.dnsError "no such host") }
      1000 [0] (by decide)⟩

/-! ### Single-flight lemmas -/

/-- Erasing the first entry matched by a predicate lowers its count by one. -/
theorem countP_eraseP_sub {α} (p : α → Bool) :
    ∀ (l : List α), 0 < l.countP p → (l.eraseP p).countP p = l.countP p - 1
  | [], h => by simp at h
  | a :: l, h => by
    by_cases ha : p a
    · rw [List.eraseP_cons_of_pos ha, List.countP_cons_of_pos _ _ ha]
      omega
    · rw [List.eraseP_cons_of_neg ha, List.countP_cons_of_neg _ _ ha,
        List.countP_cons_of_neg _ _ ha]
      rw [List.countP_cons_of_neg _ _ ha] at h
      exact countP_eraseP_sub p l h

/-- When exactly one entry with the key is present, every further caller
hits it: no backend call is launched and the entry count for the key stays
one. -/
theorem runCallers_hit (key : cacheKey) :
    ∀ (n : Nat) (q : List cacheItem),
      q.countP (fun it => it.key == key) = 1 →
      (runCallers q (List.replicate n key)).2 = 0 ∧
      (runCallers q (List.replicate n key)).1.countP (fun it => it.key == key) = 1
  | 0, q, h => by simpa [runCallers] using h
  | n + 1, q, h => by
    have hpos : 0 < q.countP (fun it => it.key == key) := by omega
    obtain ⟨a, ha, hpa⟩ := List.countP_pos.mp hpos
    obtain ⟨item, hfind⟩ := Option.isSome_iff_exists.mp
      ((@List.find?_isSome cacheItem q (fun it => it.key == key)).mpr ⟨a, ha, hpa⟩)
    have hp : (item.key == key) = true :=
      @List.find?_some cacheItem (fun it => it.key == key) item q hfind
    have hkey : item.key = key := by simpa using hp
    have hcount : (moveToFront q item).countP (fun it => it.key == key) = 1 := by
      unfold moveToFront
      rw [hkey, List.countP_cons_of_pos _ _ (by simp [hkey])]
      have := countP_eraseP_sub (fun it => it.key == key) q (by omega)
      omega
    have ih := runCallers_hit key n (moveToFront q item) hcount
    simp only [List.replicate_succ, runCallers, critSection, findItem, hfind]
    exact ⟨by simp [ih.1], by simpa using ih.2⟩

/-- C2: any number of callers racing on the same uncached key execute their
serialized critical sections; exactly the first one finds the key absent,
inserts the single pending entry and launches the one backend call, and
every later caller finds that same single entry, so the cache ends with one
entry for the key and exactly one backend invocation, whose one result all
callers then observe through the shared entry. -/
theorem single_flight_one_backend_call (q : List cacheItem) (key : cacheKey)
    (n : Nat) (habs : ∀ it ∈ q, it.key ≠ key) :
    (runCallers q (List.replicate (n + 1) key)).2 = 1 ∧
    (runCallers q (List.replicate (n + 1) key)).1.countP
      (fun it => it.key == key) = 1 := by
  have hfind : findItem q key = none :=
    List.find?_eq_none.mpr fun it hit => by simpa using habs it hit
  have hcount : ((newCacheItem key []) :: q).countP
      (fun it => it.key == key) = 1 := by
    rw [List.countP_cons_of_pos _ _ (by simp [newCacheItem])]
    rw [List.countP_eq_zero.mpr fun a ha => by simpa using habs a ha]
  have ih := runCallers_hit key n ((newCacheItem key []) :: q) hcount
  simp only [List.replicate_succ, runCallers, critSection, findItem] at ih ⊢
  simp only [findItem] at hfind
  simp only [hfind]
  exact ⟨by simp [ih.1], by simpa using ih.2⟩

/-- Witness for C2: three callers race on one uncached key. -/
theorem single_flight_one_backend_call_witness :
    (∀ it ∈ ([] : List cacheItem), it.key ≠ { name := "svc", tags := "" }) ∧
    ((runCallers [] (List.replicate (2 + 1) { name := "svc", tags := "" })).2 = 1 ∧
     (runCallers [] (List.replicate (2 + 1)
        ({ name := "svc", tags := "" } : cacheKey))).1.countP
       (fun it => it.key == { name := "svc", tags := "" }) = 1) :=
  ⟨by decide, single_flight_one_backend_call [] _ 2 (by decide)⟩

/-! ### Expired-entry retry lemmas -/

/-- Entries surviving the budget eviction loop were already in the queue. -/
theorem evictLoopRev_subset (maxB : Int) :
    ∀ (l : List cacheItem) (b s e : Int) (x : cacheItem),
      x ∈ (evictLoopRev maxB l b s e).1 → x ∈ l
  | [], b, s, e, x => by simp [evictLoopRev]
  | oldest :: rest, b, s, e, x => by
    by_cases h : b > maxB
    · simp only [evictLoopRev, if_pos h]
      exact fun hx => List.mem_cons_of_mem _ (evictLoopRev_subset maxB rest _ _ _ x hx)
    · simp only [evictLoopRev, if_neg h]
      exact fun hx => hx

/-- A retry leaves exactly the state in which the expired hit entry has
been removed from the map and queue. -/
theorem lookupIter_retry_state (cache : Cache) (st : CacheState)
    (key : cacheKey) (tags : List String) (o : LookupOracle) (st1 : CacheState)
    (h : lookupIter cache st key tags o = .retry st1) :
    st1.queue = st.queue.eraseP fun it => it.key == key := by
  unfold lookupIter at h
  cases hfind : findItem st.queue key with
  | some item =>
    rw [hfind] at h
    dsimp only at h
    by_cases hexp : o.nowCheck > item.ttl
    · rw [if_pos hexp] at h
      cases h
      rfl
    · rw [if_neg hexp] at h
      cases h
  | none =>
    rw [hfind] at h
    dsimp only at h
    cases h

/-- After erasing the entry with the key from a queue with pairwise
distinct keys, lookup of that key misses. -/
theorem findItem_eraseP_self :
    ∀ (q : List cacheItem) (key : cacheKey),
      (q.map cacheItem.key).Nodup →
      findItem (q.eraseP fun it => it.key == key) key = none
  | [], _, _ => rfl
  | it :: rest, key, hnd => by
    simp only [List.map_cons, List.nodup_cons] at hnd
    by_cases h : (it.key == key) = true
    · rw [List.eraseP_cons_of_pos (p := fun x : cacheItem => x.key == key) h]
      apply List.find?_eq_none.mpr
      intro x hx
      have hne : x.key ≠ it.key := by
        intro heq
        exact hnd.1 (heq ▸ List.mem_map_of_mem cacheItem.key hx)
      have hk : it.key = key := by simpa using h
      have : x.key ≠ key := hk ▸ hne
      simp [this]
    · rw [List.eraseP_cons_of_neg (p := fun x : cacheItem => x.key == key) h]
      rw [findItem, List.find?_cons_of_neg (p := fun x : cacheItem => x.key == key) _ h]
      exact findItem_eraseP_self rest key hnd.2

/-- C9: in the lookup loop, a caller whose own miss created the entry never
retries: it is handed the freshly fetched item even when the entry is
already expired at the check, in which case the entry has also been removed
from the map; only a hit on an expired pre-existing entry retries, and
because the retry state no longer holds the key, the second iteration is a
miss that always completes, so the loop ends after at most two iterations. -/
theorem miss_consumed_and_expired_hit_retries (cache : Cache)
    (st : CacheState) (key : cacheKey) (tags : List String)
    (o o2 : LookupOracle) (hnd : (st.queue.map cacheItem.key).Nodup) :
    (findItem st.queue key = none →
      lookupIter cache st key tags o =
        .done (missBranch cache st key tags o).1
          (missBranch cache st key tags o).2 false ∧
      (missBranch cache st key tags o).2 =
        (newCacheItem key tags).lookup o.backend cache.minTTL cache.maxTTL
          o.nowFetch o.perm ∧
      (o.nowCheck > ((newCacheItem key tags).lookup o.backend cache.minTTL
          cache.maxTTL o.nowFetch o.perm).ttl →
        findItem (missBranch cache st key tags o).1.queue key = none)) ∧
    (∀ st1, lookupIter cache st key tags o = .retry st1 →
      findItem st1.queue key = none ∧
      lookupIter cache st1 key tags o2 =
        .done (missBranch cache st1 key tags o2).1
          (missBranch cache st1 key tags o2).2 false) := by
  constructor
  · intro hmiss
    refine ⟨lookupIter_of_miss cache st key tags o hmiss,
      missBranch_item cache st key tags o, ?_⟩
    intro hexp
    unfold missBranch
    dsimp only
    rw [if_pos hexp]
    unfold finishMiss evictLoop
    dsimp only
    apply List.find?_eq_none.mpr
    intro x hx
    have hx' := List.mem_reverse.mp hx
    have hxq : x ∈ st.queue := by
      have := evictLoopRev_subset cache.maxBytes st.queue.reverse _ _ _ x hx'
      simpa using this
    exact List.find?_eq_none.mp hmiss x hxq
  · intro st1 h
    have hq := lookupIter_retry_state cache st key tags o st1 h
    have hnone : findItem st1.queue key = none := by
      rw [hq]
      exact findItem_eraseP_self st.queue key hnd
    exact ⟨hnone, lookupIter_of_miss cache st1 key tags o2 hnone⟩

/-- Witness for C9 on the empty cache with concrete oracles whose fetched
entry is expired at the check. -/
theorem miss_consumed_and_expired_hit_retries_witness :
    (CacheState.empty.queue.map cacheItem.key).Nodup ∧
    ((findItem CacheState.empty.queue { name := "svc", tags := "" } = none →
      lookupIter { MinTTL := 0, MaxTTL := 0, MaxBytes := 0 } CacheState.empty
          { name := "svc", tags := "" } []
          { backend := { addrs := ["a:1"], ttl := 1, err := none }, perm := [0],
            nowFetch := 0, nowCheck := 5 } =
        .done (missBranch { MinTTL := 0, MaxTTL := 0, MaxBytes := 0 }
            CacheState.empty { name := "svc", tags := "" } []
            { backend := { addrs := ["a:1"], ttl := 1, err := none }, perm := [0],
              nowFetch := 0, nowCheck := 5 }).1
          (missBranch { MinTTL := 0, MaxTTL := 0, MaxBytes := 0 }
            CacheState.empty { name := "svc", tags := "" } []
            { backend := { addrs := ["a:1"], ttl := 1, err := none }, perm := [0],
              nowFetch := 0, nowCheck := 5 }).2 false ∧
      (missBranch { MinTTL := 0, MaxTTL := 0, MaxBytes := 0 } CacheState.empty
          { name := "svc", tags := "" } []
          { backend := { addrs := ["a:1"], ttl := 1, err := none }, perm := [0],
            nowFetch := 0, nowCheck := 5 }).2 =
        (newCacheItem { name := "svc", tags := "" } []).lookup
          { addrs := ["a:1"], ttl := 1, err := none }
          (Cache.minTTL { MinTTL := 0, MaxTTL := 0, MaxBytes := 0 })
          (Cache.maxTTL { MinTTL := 0, MaxTTL := 0, MaxBytes := 0 }) 0 [0] ∧
      ((5 : Int) > ((newCacheItem { name := "svc", tags := "" } []).lookup
          { addrs := ["a:1"], ttl := 1, err := none }
          (Cache.minTTL { MinTTL := 0, MaxTTL := 0, MaxBytes := 0 })
          (Cache.maxTTL { MinTTL := 0, MaxTTL := 0, MaxBytes := 0 }) 0 [0]).ttl →
        findItem (missBranch { MinTTL := 0, MaxTTL := 0, MaxBytes := 0 }
            CacheState.empty { name := "svc", tags := "" } []
            { backend := { addrs := ["a:1"], ttl := 1, err := none }, perm := [0],
              nowFetch := 0, nowCheck := 5 }).1.queue
          { name := "svc", tags := "" } = none)) ∧
    (∀ st1, lookupIter { MinTTL := 0, MaxTTL := 0, MaxBytes := 0 }
        CacheState.empty { name := "svc", tags := "" } []
        { backend := { addrs := ["a:1"], ttl := 1, err := none }, perm := [0],
          nowFetch := 0, nowCheck := 5 } = .retry st1 →
      findItem st1.queue { name := "svc", tags := "" } = none ∧
      lookupIter { MinTTL := 0, MaxTTL := 0, MaxBytes := 0 } st1
          { name := "svc", tags := "" } []
          { backend := { addrs := ["a:1"], ttl := 1, err := none }, perm := [0],
            nowFetch := 0, nowCheck := 5 } =
        .done (missBranch { MinTTL := 0, MaxTTL := 0, MaxBytes := 0 } st1
            { name := "svc", tags := "" } []
            { backend := { addrs := ["a:1"], ttl := 1, err := none }, perm := [0],
              nowFetch := 0, nowCheck := 5 }).1
          (missBranch { MinTTL := 0, MaxTTL := 0, MaxBytes := 0 } st1
            { name := "svc", tags := "" } []
            { backend := { addrs := ["a:1"], ttl := 1, err := none }, perm := [0],
              nowFetch := 0, nowCheck := 5 }).2 false)) :=
  ⟨by decide,
    miss_consumed_and_expired_hit_retries { MinTTL := 0, MaxTTL := 0, MaxBytes := 0 }
      CacheState.empty { name := "svc", tags := "" } [] _ _ (by decide)⟩

/-! ### Budget eviction lemmas -/

theorem sumBytes_nil : sumBytes [] = 0 := rfl

theorem sumBytes_cons (x : cacheItem) (l : List cacheItem) :
    sumBytes (x :: l) = x.bytes + sumBytes l := by
  simp [sumBytes]

theorem sumBytes_reverse (l : List cacheItem) :
    sumBytes l.reverse = sumBytes l := by
  simp [sumBytes]
  exact (List.sum_reverse _)

/-- Full characterization of the budget eviction loop on the reversed
queue: some initial segment of length d is evicted; the byte counter drops
by its footprint, size drops by d and evictions grows by d; the loop stops
only within budget or with an empty cache; and before each eviction the
budget was still exceeded. -/
theorem evictLoopRev_spec (maxB : Int) :
    ∀ (l : List cacheItem) (b s e : Int),
      ∃ d, d ≤ l.length ∧
        (evictLoopRev maxB l b s e).1 = l.drop d ∧
        (evictLoopRev maxB l b s e).2.1 = b - sumBytes (l.take d) ∧
        (evictLoopRev maxB l b s e).2.2.1 = s - d ∧
        (evictLoopRev maxB l b s e).2.2.2 = e + d ∧
        ((evictLoopRev maxB l b s e).2.1 ≤ maxB ∨
          (evictLoopRev maxB l b s e).1 = []) ∧
        (∀ j < d, b - sumBytes (l.take j) > maxB)
  | [], b, s, e => by
    refine ⟨0, by simp, ?_, ?_, ?_, ?_, ?_, ?_⟩ <;>
      simp [evictLoopRev, sumBytes_nil]
  | oldest :: rest, b, s, e => by
    by_cases h : b > maxB
    · obtain ⟨d, hd, h1, h2, h3, h4, h5, h6⟩ :=
        evictLoopRev_spec maxB rest (b - oldest.bytes) (s - 1) (e + 1)
      refine ⟨d + 1, by simpa using Nat.succ_le_succ hd, ?_, ?_, ?_, ?_, ?_, ?_⟩
      · simp only [evictLoopRev, if_pos h]
        simpa using h1
      · simp only [evictLoopRev, if_pos h]
        rw [h2, List.take_succ_cons, sumBytes_cons]
        omega
      · simp only [evictLoopRev, if_pos h]
        rw [h3]; omega
      · simp only [evictLoopRev, if_pos h]
        rw [h4]; omega
      · simp only [evictLoopRev, if_pos h]
        exact h5
      · intro j hj
        match j with
        | 0 => simpa [sumBytes_nil] using h
        | j + 1 =>
          rw [List.take_succ_cons, sumBytes_cons]
          have := h6 j (by omega)
          omega
    · refine ⟨0, by simp, ?_, ?_, ?_, ?_, ?_, ?_⟩
      · simp only [evictLoopRev, if_neg h]
        rfl
      · simp only [evictLoopRev, if_neg h]
        simp [sumBytes_nil]
      · simp only [evictLoopRev, if_neg h]
        omega
      · simp only [evictLoopRev, if_neg h]
        omega
      · simp only [evictLoopRev, if_neg h]
        left; omega
      · intro j hj; omega

/-- C7: on every cache miss, after the new entry footprint is added the
miss bookkeeping splits the recency queue into the surviving front and an
evicted back segment: while the byte counter exceeds the budget (1 MiB when
MaxBytes is not positive) the least-recently-touched entries are removed
from the back one at a time, independent of their TTLs, decrementing size
and bytes and incrementing evictions, until the counter is within budget or
the cache is empty. -/
theorem budget_eviction_lru (cache : Cache) (st : CacheState) (item : cacheItem) :
    (cache.MaxBytes ≤ 0 → cache.maxBytes = 1024 * 1024) ∧
    ∃ front back,
      st.queue = front ++ back ∧
      (finishMiss cache st item).1.queue = front ∧
      (finishMiss cache st item).1.misses = st.misses + 1 ∧
      (finishMiss cache st item).1.hits = st.hits ∧
      (finishMiss cache st item).1.bytes =
        st.bytes + item.bytes - sumBytes back ∧
      (finishMiss cache st item).1.size = st.size + 1 - back.length ∧
      (finishMiss cache st item).1.evictions = st.evictions + back.length ∧
      ((finishMiss cache st item).1.bytes ≤ cache.maxBytes ∨
        (finishMiss cache st item).1.queue = []) ∧
      ∀ j < back.length,
        st.bytes + item.bytes - sumBytes (back.drop (back.length - j)) >
          cache.maxBytes := by
  constructor
  · intro h0
    simp only [Cache.maxBytes, if_neg (show ¬ cache.MaxBytes > 0 by omega)]
  · obtain ⟨d, hd, h1, h2, h3, h4, h5, h6⟩ :=
      evictLoopRev_spec cache.maxBytes st.queue.reverse
        (st.bytes + item.bytes) (st.size + 1) st.evictions
    rw [List.length_reverse] at hd
    have hxl : (st.queue.reverse.take d).length = d := by
      rw [List.length_take, List.length_reverse]
      omega
    have hlen : (st.queue.reverse.take d).reverse.length = d := by
      rw [List.length_reverse]; exact hxl
    refine ⟨(st.queue.reverse.drop d).reverse, (st.queue.reverse.take d).reverse,
      ?_, ?_, ?_, ?_, ?_, ?_, ?_, ?_, ?_⟩
    · calc st.queue = st.queue.reverse.reverse := (List.reverse_reverse _).symm
        _ = (st.queue.reverse.take d ++ st.queue.reverse.drop d).reverse := by
            rw [List.take_append_drop]
        _ = (st.queue.reverse.drop d).reverse ++ (st.queue.reverse.take d).reverse :=
            List.reverse_append _ _
    · simp only [finishMiss, evictLoop]
      rw [h1]
    · simp only [finishMiss, evictLoop]
    · simp only [finishMiss, evictLoop]
    · simp only [finishMiss, evictLoop]
      rw [h2, sumBytes_reverse]
    · simp only [finishMiss, evictLoop]
      rw [h3, hlen]
    · simp only [finishMiss, evictLoop]
      rw [h4, hlen]
    · simp only [finishMiss, evictLoop]
      rcases h5 with h5 | h5
      · exact Or.inl h5
      · right
        rw [h5]
        rfl
    · intro j hj
      rw [hlen] at hj ⊢
      rw [List.drop_reverse, sumBytes_reverse, hxl,
        Nat.sub_sub_self (le_of_lt hj), List.take_take]
      have hmin : j ⊓ d = j := by omega
      rw [hmin]
      exact h6 j hj

/-! ### Round-robin lemmas -/

/-- One successful round-robin step: the counter advances (wrapping modulo
2^64) and the address at the new counter modulo the list length is
returned. -/
theorem resolveAddr_ok (item : cacheItem) (herr : item.err = none)
    (hne : ¬ item.addrs.length = 0) :
    resolveAddr item =
      ({ item with index := (item.index + 1) % 2 ^ 64 },
        Except.ok (item.addrs.getD
          (((item.index + 1) % 2 ^ 64) % item.addrs.length) "")) := by
  unfold resolveAddr
  rw [herr]
  dsimp only
  rw [dif_neg hne]
  congr 1
  rw [List.getD_eq_getElem]
  rfl

/-- Reading a list back at indices 0..length-1 with getD reproduces it. -/
theorem getD_map_range :
    ∀ (l : List String) (n : Nat), n = l.length →
      (List.range n).map (fun i => l.getD i "") = l
  | [], n, h => by subst h; rfl
  | a :: tl, n, h => by
    subst h
    rw [List.length_cons, List.range_succ_eq_map, List.map_cons, List.map_map]
    congr 1
    exact getD_map_range tl tl.length rfl

/-- The selection index map of a round-robin window is injective on the
window. -/
theorem round_robin_index_inj {j n : Nat} :
    ∀ t1, t1 < n → ∀ t2, t2 < n →
      (j + t1 + 1) % n = (j + t2 + 1) % n → t1 = t2 := by
  intro t1 h1 t2 h2 h
  have e1 : j + t1 + 1 = (j + 1) + t1 := by omega
  have e2 : j + t2 + 1 = (j + 1) + t2 := by omega
  rw [e1, e2] at h
  have hm : t1 % n = t2 % n := Nat.ModEq.add_left_cancel' (j + 1) h
  rwa [Nat.mod_eq_of_lt h1, Nat.mod_eq_of_lt h2] at hm

/-- The outputs of a whole window of successful round-robin steps, provided
the 64-bit counter does not wrap inside the window. -/
theorem resolveN_window :
    ∀ (n : Nat) (item : cacheItem), item.err = none →
      0 < item.addrs.length → item.index + n < 2 ^ 64 →
      (resolveN item n).2 =
        (List.range n).map fun t =>
          Except.ok (item.addrs.getD ((item.index + t + 1) % item.addrs.length) "")
  | 0, item, _, _, _ => rfl
  | n + 1, item, herr, hpos, hnw => by
    have hne : ¬ item.addrs.length = 0 := by omega
    have hstep := resolveAddr_ok item herr hne
    have hidx : (item.index + 1) % 2 ^ 64 = item.index + 1 :=
      Nat.mod_eq_of_lt (by omega)
    simp only [resolveN, hstep]
    have ih := resolveN_window n
      { item with index := (item.index + 1) % 2 ^ 64 }
      herr hpos (by dsimp only; omega)
    rw [ih]
    dsimp only
    rw [List.range_succ_eq_map, List.map_cons, List.map_map]
    rw [hidx]
    congr 1
    apply List.map_congr_left
    intro t _
    have : item.index + 1 + t + 1 = item.index + (t + 1) + 1 := by omega
    simp [Function.comp, this]

/-- C4 (amended): while an entry stays cached (every non-expired hit serves
the same entry unchanged), each window of k consecutive Resolve selections
on an entry with k addresses returns every address exactly once — provided
the 64-bit per-key counter does not wrap inside the window, which holds for
the first 2^64 calls on an entry; at a wrap of the uint64 counter the
rotation is perturbed (see the counterexample). -/
theorem resolve_round_robin_window (item : cacheItem) (k : Nat)
    (hk : item.addrs.length = k) (hkpos : 0 < k) (herr : item.err = none)
    (hnw : item.index + k < 2 ^ 64) :
    (resolveN item k).2.Perm (item.addrs.map Except.ok) ∧
    (∀ (cache : Cache) (st : CacheState) (tags : List String) (o : LookupOracle),
      findItem st.queue item.key = some item → ¬ o.nowCheck > item.ttl →
      lookupIter cache st item.key tags o =
        .done { st with queue := moveToFront st.queue item, hits := st.hits + 1 } item true) := by
  subst hk
  constructor
  · rw [resolveN_window item.addrs.length item herr hkpos hnw]
    have hI : ((List.range item.addrs.length).map
        fun t => (item.index + t + 1) % item.addrs.length).Perm
        (List.range item.addrs.length) := by
      apply List.Subperm.perm_of_length_le
      · apply List.subperm_of_subset
        · apply List.Nodup.map_on
          · intro t1 ht1 t2 ht2 heq
            exact round_robin_index_inj t1 (List.mem_range.mp ht1) t2
              (List.mem_range.mp ht2) heq
          · exact List.nodup_range _
        · intro x hx
          obtain ⟨t, _, rfl⟩ := List.mem_map.mp hx
          exact List.mem_range.mpr (Nat.mod_lt _ hkpos)
      · simp
    have hmap : (List.range item.addrs.length).map
        (fun t => Except.ok (ε := GoError)
          (item.addrs.getD ((item.index + t + 1) % item.addrs.length) "")) =
        (((List.range item.addrs.length).map
          fun t => (item.index + t + 1) % item.addrs.length).map
            fun i => item.addrs.getD i "").map Except.ok := by
      simp [List.map_map]
    rw [hmap]
    have hperm := (hI.map fun i => item.addrs.getD i "").map
      (Except.ok (ε := GoError))
    rw [getD_map_range item.addrs item.addrs.length rfl] at hperm
    exact hperm
  · intro cache st tags o hfind hexp
    unfold lookupIter
    rw [hfind]
    dsimp only
    rw [if_neg hexp]

/-- Witness for the amended C4 at a concrete three-address entry away from
the counter wrap. -/
theorem resolve_round_robin_window_witness :
    (rrItem.addrs.length = 3 ∧ (0 : Nat) < 3 ∧ rrItem.err = none ∧
      rrItem.index + 3 < 2 ^ 64) ∧
    ((resolveN rrItem 3).2.Perm (rrItem.addrs.map Except.ok) ∧
     (∀ (cache : Cache) (st : CacheState) (tags : List String) (o : LookupOracle),
      findItem st.queue rrItem.key = some rrItem → ¬ o.nowCheck > rrItem.ttl →
      lookupIter cache st rrItem.key tags o =
        .done { st with queue := moveToFront st.queue rrItem, hits := st.hits + 1 } rrItem true)) :=
  ⟨⟨by decide, by decide, by decide, by decide⟩,
    resolve_round_robin_window rrItem 3 (by decide) (by decide) (by decide) (by decide)⟩

/-- C4 counterexample: at the wrap of the uint64 counter the round-robin
window breaks.  An entry with three addresses and counter value 2^64 - 3
yields, over the next window of three calls, the addresses c, a, a: the
address a repeats inside the window and b is skipped, because
atomic.AddUint64 wraps to 0 while 2^64 is not a multiple of 3. -/
theorem resolve_round_robin_wrap_cex :
    (resolveN rrWrapItem 3).2 = [Except.ok "c", Except.ok "a", Except.ok "a"] ∧
    ¬ (resolveN rrWrapItem 3).2.Perm (rrWrapItem.addrs.map Except.ok) := by
  refine ⟨by decide, by decide⟩
